import Mathlib

/-
Shallow embedding of the elevator control logic of pico-toy-elevator
(src/src/elevator.rs), a tick-driven elevator state machine for a
Raspberry Pi Pico.  Pure state: current floor index, direction with
optional 0-100 inter-floor progress, door state with 0-100 sub-phase
progress, and a fixed table of floors each carrying its level number, a
pending-request flag (`stop`) and an indicator LED flag.  Hardware side
effects are modelled explicitly: button sampling becomes a per-tick
boolean input, the announcement callback becomes a list of emitted cues,
and the repaint callback becomes a count of notifications.  Rust `usize`
subtraction is modelled with release-build wrapping semantics
(mod 2 ^ 64); an out-of-range index into the floor array, which panics in
every build profile, is modelled by returning `none`.
-/

set_option maxRecDepth 10000

namespace PicoElevator

/-- `Direction` from elevator.rs: `Up(Option<u8>)`, `Down(Option<u8>)`, `Idle`. -/
inductive Direction : Type
  | up : Option Nat → Direction
  | down : Option Nat → Direction
  | idle : Direction
deriving DecidableEq

/-- `DoorState` from elevator.rs: `Opening(u8)`, `Open(u8)`, `Closing(u8)`,
`Closed`.  The Rust constructor `Open` is a Lean keyword, rendered `opened`. -/
inductive DoorState : Type
  | opening : Nat → DoorState
  | opened : Nat → DoorState
  | closing : Nat → DoorState
  | closed : DoorState
deriving DecidableEq

/-- One entry of the `Floor` table: its level `number`, the pending request
flag `stop`, and the indicator LED state `led` (true = lit, i.e. the button
capability was last driven by `turn_on`).  The display label and the
pronunciation byte string do not influence control flow and are elided;
arrival cues are emitted as the floor index instead. -/
structure FloorSt : Type where
  number : Int
  stop : Bool
  led : Bool
deriving DecidableEq

/-- The `Elevator` aggregate state (the two callback slots are modelled as
always present, with their invocations collected as outputs). -/
structure Elevator : Type where
  current_floor_index : Nat
  direction : Direction
  door : DoorState
  floors : List FloorSt
deriving DecidableEq

/-- The announcement cues the code can emit through the `announce` callback:
"going up", "going down", "doors closing", and the per-floor arrival cue
(identified by floor index). -/
inductive Announce : Type
  | goingUp : Announce
  | goingDown : Announce
  | doorsClosing : Announce
  | floorCue : Nat → Announce
deriving DecidableEq

/-- Observable side effects of one call: announcement cues emitted (in call
order) and the number of repaint-callback invocations. -/
structure Output : Type where
  announces : List Announce
  repaints : Nat
deriving DecidableEq

/-- Wrapping `usize` subtraction (release-build semantics, 64-bit target).
In a debug build the same subtraction panics on underflow. -/
def usizeSub (a b : Nat) : Nat := (a + (2 ^ 64 - b % 2 ^ 64)) % 2 ^ 64

/-- `Elevator::set_direction`: store the new value and fire one repaint
notification, suppressed when the value is unchanged. -/
def set_direction (d : Direction) (e : Elevator) : Elevator × Nat :=
  if e.direction = d then (e, 0) else ({ e with direction := d }, 1)

/-- `Elevator::set_door`: store the new value and fire one repaint
notification, suppressed when the value is unchanged. -/
def set_door (d : DoorState) (e : Elevator) : Elevator × Nat :=
  if e.door = d then (e, 0) else ({ e with door := d }, 1)

/-- `Elevator::set_current_floor_index`: store the new value and fire one
repaint notification, suppressed when the value is unchanged. -/
def set_current_floor_index (i : Nat) (e : Elevator) : Elevator × Nat :=
  if e.current_floor_index = i then (e, 0)
  else ({ e with current_floor_index := i }, 1)

/-- The direction computation inside `Elevator::goto_next_floor`.
`upper_floors = floors[index..]` (including the current floor),
`lower_floors = floors[..index]`.  The Idle branch compares
`upper.unwrap() - index` (a slice-relative position minus the absolute
index, wrapping on underflow in release builds) against
`index - lower.unwrap()`. -/
def gotoDir (e : Elevator) : Direction :=
  let index := e.current_floor_index
  let upper_floors := e.floors.drop index
  let lower_floors := e.floors.take index
  match e.direction with
    | Direction.up _ =>
        if (upper_floors.findIdx? (fun f => f.stop)).isSome then
          Direction.up (some 0)
        else if (lower_floors.findIdx? (fun f => f.stop)).isSome then
          Direction.down (some 0)
        else Direction.idle
    | Direction.down _ =>
        if (lower_floors.findIdx? (fun f => f.stop)).isSome then
          Direction.down (some 0)
        else if (upper_floors.findIdx? (fun f => f.stop)).isSome then
          Direction.up (some 0)
        else Direction.idle
    | Direction.idle =>
        match upper_floors.findIdx? (fun f => f.stop),
              lower_floors.findIdx? (fun f => f.stop) with
        | some u, some l =>
            if usizeSub u index < usizeSub index l then Direction.up (some 0)
            else Direction.down (some 0)
        | some _, none => Direction.up (some 0)
        | none, some _ => Direction.down (some 0)
        | none, none => Direction.idle

/-- `Elevator::goto_next_floor`: pick the next committed direction via
`gotoDir`; selecting Up or Down emits the corresponding announcement
before the direction is stored (an Idle selection emits nothing). -/
def goto_next_floor (e : Elevator) : Elevator × Output :=
  let direction := gotoDir e
  let ann : List Announce :=
    match direction with
    | Direction.up _ => [Announce.goingUp]
    | Direction.down _ => [Announce.goingDown]
    | Direction.idle => []
  let pr := set_direction direction e
  (pr.1, ⟨ann, pr.2⟩)

/-- The button-capture loop at the top of `Elevator::advance`, walking the
floor list with its index: a pressed button on a not-yet-requested floor
sets the request flag and lights the indicator; if additionally the car is
Idle exactly at that floor the loop stops early (the Rust `return`).
Returns the updated floor list and whether the early return fired. -/
def buttonScan (pressed : Nat → Bool) (dir : Direction) (cur : Nat) :
    List FloorSt → Nat → List FloorSt × Bool
  | [], _ => ([], false)
  | f :: rest, i =>
      if pressed i && !f.stop then
        let f1 : FloorSt := { f with stop := true, led := true }
        if dir = Direction.idle ∧ cur = i then (f1 :: rest, true)
        else
          let r := buttonScan pressed dir cur rest (i + 1)
          (f1 :: r.1, r.2)
      else
        let r := buttonScan pressed dir cur rest (i + 1)
        (f :: r.1, r.2)

/-- `Elevator::advance`: one logical tick.  `pressed i` is the sampled
`is_pressed` result of floor `i` for this tick (the capability is assumed
available, as the source unwraps it).  Returns `none` exactly when the
source would panic by indexing the floor array out of range (including the
`usize` underflow of `current_floor_index - 1` at index 0, whose wrapped
value is likewise out of range). -/
def advance (pressed : Nat → Bool) (e : Elevator) : Option (Elevator × Output) :=
  let scan := buttonScan pressed e.direction e.current_floor_index e.floors 0
  let e1 : Elevator := { e with floors := scan.1 }
  if scan.2 then
    let pr := set_door (DoorState.opening 0) e1
    some (pr.1, ⟨[], pr.2⟩)
  else
    match e1.door with
    | DoorState.opening progress =>
        if progress = 100 then
          let pr := set_door (DoorState.opened 0) e1
          some (pr.1, ⟨[], pr.2⟩)
        else if progress = 0 then
          match e1.floors.get? e1.current_floor_index with
          | none => none
          | some _ =>
              let pr := set_door (DoorState.opening (progress + 5)) e1
              some (pr.1, ⟨[Announce.floorCue e1.current_floor_index], pr.2⟩)
        else
          let pr := set_door (DoorState.opening (progress + 5)) e1
          some (pr.1, ⟨[], pr.2⟩)
    | DoorState.opened progress =>
        if progress = 100 then
          let pr := set_door (DoorState.closing 0) e1
          some (pr.1, ⟨[], pr.2⟩)
        else
          let pr := set_door (DoorState.opened (progress + 2)) e1
          some (pr.1, ⟨[], pr.2⟩)
    | DoorState.closing progress =>
        if progress = 100 then
          match e1.floors.get? e1.current_floor_index with
          | none => none
          | some f =>
              if f.stop then
                let e2 : Elevator :=
                  { e1 with
                    floors := e1.floors.set e1.current_floor_index
                      { f with stop := false, led := false } }
                let pr := set_door DoorState.closed e2
                some (pr.1, ⟨[], pr.2⟩)
              else
                let pr := set_door DoorState.closed e1
                some (pr.1, ⟨[], pr.2⟩)
        else if progress = 0 then
          let pr := set_door (DoorState.closing (progress + 5)) e1
          some (pr.1, ⟨[Announce.doorsClosing], pr.2⟩)
        else
          let pr := set_door (DoorState.closing (progress + 5)) e1
          some (pr.1, ⟨[], pr.2⟩)
    | DoorState.closed =>
        match e1.direction with
        | Direction.up value =>
            match value with
            | some progress =>
                if progress = 100 then
                  let index := e1.current_floor_index + 1
                  let pc := set_current_floor_index index e1
                  match pc.1.floors.get? index with
                  | none => none
                  | some f =>
                      if f.stop then
                        let pd := set_door (DoorState.opening 0) pc.1
                        let d :=
                          if index = pd.1.floors.length - 1 then
                            if ((pd.1.floors.take index).findIdx?
                                (fun fl => fl.stop)).isSome then
                              Direction.down none
                            else Direction.idle
                          else Direction.up none
                        let ps := set_direction d pd.1
                        some (ps.1, ⟨[], pc.2 + pd.2 + ps.2⟩)
                      else
                        let ps := set_direction (Direction.up (some 0)) pc.1
                        some (ps.1, ⟨[], pc.2 + ps.2⟩)
                else
                  let pr := set_direction (Direction.up (some (progress + 2))) e1
                  some (pr.1, ⟨[], pr.2⟩)
            | none => some (goto_next_floor e1)
        | Direction.down value =>
            match value with
            | some progress =>
                if progress = 100 then
                  if e1.current_floor_index = 0 then none
                  else
                    let index := e1.current_floor_index - 1
                    let pc := set_current_floor_index index e1
                    match pc.1.floors.get? index with
                    | none => none
                    | some f =>
                        if f.stop then
                          let pd := set_door (DoorState.opening 0) pc.1
                          let d :=
                            if index = 0 then
                              if ((pd.1.floors.drop 1).findIdx?
                                  (fun fl => fl.stop)).isSome then
                                Direction.up none
                              else Direction.idle
                            else Direction.down none
                          let ps := set_direction d pd.1
                          some (ps.1, ⟨[], pc.2 + pd.2 + ps.2⟩)
                        else
                          let ps := set_direction (Direction.down (some 0)) pc.1
                          some (ps.1, ⟨[], pc.2 + ps.2⟩)
                else
                  let pr := set_direction (Direction.down (some (progress + 2))) e1
                  some (pr.1, ⟨[], pr.2⟩)
            | none => some (goto_next_floor e1)
        | Direction.idle => some (goto_next_floor e1)

/-- `Elevator::set_door_open(value) -> bool`: the manual door override.
Returns the accept flag, the new state, and the observable output (it never
announces; at most one repaint fires, via `set_door`). -/
def set_door_open (value : Bool) (e : Elevator) : Bool × Elevator × Output :=
  if value then
    match e.door with
    | DoorState.opening _ => (false, e, ⟨[], 0⟩)
    | DoorState.opened _ =>
        let pr := set_door (DoorState.opened 0) e
        (true, pr.1, ⟨[], pr.2⟩)
    | DoorState.closing progress =>
        let pr := set_door (DoorState.opening (100 - progress)) e
        (true, pr.1, ⟨[], pr.2⟩)
    | DoorState.closed =>
        if e.direction = Direction.idle then
          let pr := set_door (DoorState.opening 0) e
          (true, pr.1, ⟨[], pr.2⟩)
        else (false, e, ⟨[], 0⟩)
  else
    match e.door with
    | DoorState.opened _ =>
        let pr := set_door (DoorState.closing 0) e
        (true, pr.1, ⟨[], pr.2⟩)
    | _ => (false, e, ⟨[], 0⟩)

/-- Modelled from the spec: the stop-request entry point (`request_stop` in
the spec, called `set_stop` by src/src/main.rs) is not present in
src/src/elevator.rs.  Per spec sections 4.1 and 7 it marks the floor at
`level` as requested and lights its indicator if such a floor exists and is
not already requested, returning whether the indicator should now be lit;
a `level` absent from the table is silently ignored with result `false`,
and an already-requested floor is a no-op with result `false`. -/
def request_stop (level : Int) (e : Elevator) : Bool × Elevator :=
  match e.floors.findIdx? (fun f => f.number = level) with
  | none => (false, e)
  | some i =>
      match e.floors.get? i with
      | none => (false, e)
      | some f =>
          if f.stop then (false, e)
          else (true, { e with floors := e.floors.set i { f with stop := true, led := true } })

/-- The level numbers of the 8-entry floor table configured in
src/src/main.rs: B2, B1, 1, 2, 3, 4, 5, 6. -/
def mainFloorNums : List Int := [-2, -1, 1, 2, 3, 4, 5, 6]

/-- `Elevator::new`: start Idle with the door Closed at the index of the
floor whose level is 1 (the source unwraps this lookup; `none` models the
construction-time panic when no such floor exists). -/
def Elevator.new (nums : List Int) : Option Elevator :=
  match nums.findIdx? (fun n => n = 1) with
  | none => none
  | some i =>
      some
        { current_floor_index := i
          direction := Direction.idle
          door := DoorState.closed
          floors := nums.map (fun n => ⟨n, false, false⟩) }

/-- The initial state of the program: the table of src/src/main.rs, car at
index 2 (level 1), Idle, Closed, no requests, indicators off. -/
def initState : Elevator :=
  { current_floor_index := 2
    direction := Direction.idle
    door := DoorState.closed
    floors := mainFloorNums.map (fun n => ⟨n, false, false⟩) }

/-- The all-buttons-unpressed tick input. -/
def pFalse : Nat → Bool := fun _ => false

/-- The tick input with exactly button `i` pressed. -/
def pOnly (i : Nat) : Nat → Bool := fun j => j == i

/-- Run `advance` over a list of per-tick button samplings, state only;
`none` once any tick panics. -/
def runTrace : List (Nat → Bool) → Elevator → Option Elevator
  | [], e => some e
  | p :: rest, e =>
      match advance p e with
      | none => none
      | some (e1, _) => runTrace rest e1

/-- The states reachable from the initial state by any sequence of
`advance` ticks (with arbitrary button inputs) and `set_door_open` calls. -/
inductive Reachable : Elevator → Prop
  | init : Reachable initState
  | advanceStep {e e1 : Elevator} {p : Nat → Bool} {o : Output} :
      Reachable e → advance p e = some (e1, o) → Reachable e1
  | doorStep {e : Elevator} {v b : Bool} {e1 : Elevator} {o : Output} :
      Reachable e → set_door_open v e = (b, e1, o) → Reachable e1

end PicoElevator

namespace PicoElevator

/-- The direction claims in-transit progress (`Up(Some(p))` or `Down(Some(p))`). -/
def isTransit : Direction → Bool
  | Direction.up (some _) => true
  | Direction.down (some _) => true
  | _ => false

/-- The mid-transit door invariant: whenever the direction carries explicit
progress, the door is Closed. -/
def Inv (e : Elevator) : Prop :=
  isTransit e.direction = true → e.door = DoorState.closed

/-- The direction is upward (with or without progress). -/
def isUp : Direction → Bool
  | Direction.up _ => true
  | _ => false

/-- The direction is downward (with or without progress). -/
def isDown : Direction → Bool
  | Direction.down _ => true
  | _ => false

/-- Some floor strictly above the current index is requested. -/
def hasStopAbove (e : Elevator) : Bool :=
  (e.floors.drop (e.current_floor_index + 1)).any (fun f => f.stop)

/-- Constructor tag of a door state, to speak about phase changes. -/
def phaseIdx : DoorState → Nat
  | DoorState.opening _ => 0
  | DoorState.opened _ => 1
  | DoorState.closing _ => 2
  | DoorState.closed => 3

/-- Sub-phase progress of a door state (`Closed` carries none; read as 0). -/
def doorProg : DoorState → Nat
  | DoorState.opening q => q
  | DoorState.opened q => q
  | DoorState.closing q => q
  | DoorState.closed => 0

/-- Index-distance from the current index to the nearest requested floor
strictly above it, as the spec words it. -/
def stopAboveDist (e : Elevator) : Option Nat :=
  ((e.floors.drop (e.current_floor_index + 1)).findIdx? (fun f => f.stop)).map
    (fun k => k + 1)

/-- Index-distance from the current index to the nearest requested floor
strictly below it, as the spec words it. -/
def stopBelowDist (e : Elevator) : Option Nat :=
  (((e.floors.take e.current_floor_index).reverse).findIdx? (fun f => f.stop)).map
    (fun k => k + 1)

/-- The Idle-car direction choice as the spec words it: with requests on
both sides pick the side whose nearest request is at strictly smaller
index-distance, ties going down; one-sided requests pick that side. -/
def idleChoiceSpec (e : Elevator) : Direction :=
  match stopAboveDist e, stopBelowDist e with
  | some a, some b =>
      if a < b then Direction.up (some 0) else Direction.down (some 0)
  | some _, none => Direction.up (some 0)
  | none, some _ => Direction.down (some 0)
  | none, none => Direction.idle

/-- The direction committed on arriving upward at requested floor `idx`
(amended wording): `Up(None)` except at the top index, where it is
`Down(None)` if some floor below is requested and `Idle` otherwise. -/
def arrivalDirUp (fs : List FloorSt) (idx : Nat) : Direction :=
  if idx = fs.length - 1 then
    if (fs.take idx).any (fun f => f.stop) then Direction.down none
    else Direction.idle
  else Direction.up none

/-- The direction committed on arriving downward at requested floor `idx`
(amended wording): `Down(None)` except at index 0, where it is `Up(None)`
if some floor above is requested and `Idle` otherwise. -/
def arrivalDirDown (fs : List FloorSt) (idx : Nat) : Direction :=
  if idx = 0 then
    if (fs.drop 1).any (fun f => f.stop) then Direction.up none
    else Direction.idle
  else Direction.down none

/-- The `set_door_open` accept/transition table exactly as the claim words
it: the accept flag and the resulting door state (unchanged on reject). -/
def setDoorOpenSpec (value : Bool) (e : Elevator) : Bool × DoorState :=
  if value then
    match e.door with
    | DoorState.opening _ => (false, e.door)
    | DoorState.opened _ => (true, DoorState.opened 0)
    | DoorState.closing q => (true, DoorState.opening (100 - q))
    | DoorState.closed =>
        if e.direction = Direction.idle then (true, DoorState.opening 0)
        else (false, e.door)
  else
    match e.door with
    | DoorState.opened _ => (true, DoorState.closing 0)
    | _ => (false, e.door)

/-- The door-phase tick exactly as the claim words it: +5 per tick in
Opening/Closing, +2 in Open; arrival cue at Opening progress 0 and the
doors-closing cue at Closing progress 0; at progress 100
Opening→Open(0), Open→Closing(0), Closing→Closed with the current floor
request flag cleared and its indicator turned off when set.  (The `none`
fallback of the lookups is unreachable when the current index is in
range.) -/
def doorTickSpec (e : Elevator) : Elevator × List Announce :=
  match e.door with
  | DoorState.opening q =>
      if q = 100 then ({ e with door := DoorState.opened 0 }, [])
      else if q = 0 then
        ({ e with door := DoorState.opening (q + 5) },
          [Announce.floorCue e.current_floor_index])
      else ({ e with door := DoorState.opening (q + 5) }, [])
  | DoorState.opened q =>
      if q = 100 then ({ e with door := DoorState.closing 0 }, [])
      else ({ e with door := DoorState.opened (q + 2) }, [])
  | DoorState.closing q =>
      if q = 100 then
        match e.floors.get? e.current_floor_index with
        | some f =>
            if f.stop then
              let fs2 := e.floors.set e.current_floor_index
                { f with stop := false, led := false }
              ({ e with door := DoorState.closed, floors := fs2 }, [])
            else ({ e with door := DoorState.closed }, [])
        | none => ({ e with door := DoorState.closed }, [])
      else if q = 0 then
        ({ e with door := DoorState.closing (q + 5) }, [Announce.doorsClosing])
      else ({ e with door := DoorState.closing (q + 5) }, [])
  | DoorState.closed => (e, [])

end PicoElevator

namespace PicoElevator

/-- A floor-table entry with request flag and indicator both equal to `s`
(as produced by a button press), at level `n`. -/
def flo (n : Int) (s : Bool) : FloorSt := ⟨n, s, s⟩

/-- Idle car at index 3 with requests at index 4 (distance 1 above) and
index 0 (distance 3 below): the input on which the Idle-selection
distance comparison of `goto_next_floor` misbehaves. -/
def c1state : Elevator :=
  { current_floor_index := 3
    direction := Direction.idle
    door := DoorState.closed
    floors := [flo (-2) true, flo (-1) false, flo 1 false, flo 2 false,
               flo 3 true, flo 4 false, flo 5 false, flo 6 false] }

/-- Car one tick from arriving upward at index 2, which is requested, with
a further request behind at index 0 and none above index 2. -/
def c2state : Elevator :=
  { current_floor_index := 1
    direction := Direction.up (some 100)
    door := DoorState.closed
    floors := [flo (-2) true, flo (-1) false, flo 1 true, flo 2 false,
               flo 3 false, flo 4 false, flo 5 false, flo 6 false] }

/-- The state `advance` produces from `c2state` with no buttons pressed. -/
def c2post : Elevator :=
  { c2state with
    current_floor_index := 2
    direction := Direction.up none
    door := DoorState.opening 0 }

/-- Car one tick from arriving downward at index 2, which is requested. -/
def c2dstate : Elevator :=
  { current_floor_index := 3
    direction := Direction.down (some 100)
    door := DoorState.closed
    floors := [flo (-2) false, flo (-1) false, flo 1 true, flo 2 false,
               flo 3 false, flo 4 false, flo 5 false, flo 6 false] }

/-- The state `advance` produces from `c2dstate` with no buttons pressed. -/
def c2dpost : Elevator :=
  { c2dstate with
    current_floor_index := 2
    direction := Direction.down none
    door := DoorState.opening 0 }

/-- Car moving up at index 6 with requests at index 7 (above) and
index 3 (behind): one tick later it arrives at 7 and commits Down(None). -/
def c5state : Elevator :=
  { current_floor_index := 6
    direction := Direction.up (some 100)
    door := DoorState.closed
    floors := [flo (-2) false, flo (-1) false, flo 1 false, flo 2 true,
               flo 3 false, flo 4 false, flo 5 false, flo 6 true] }

/-- Car moving up at index 2 with a request at index 5. -/
def c5wit : Elevator :=
  { current_floor_index := 2
    direction := Direction.up (some 0)
    door := DoorState.closed
    floors := [flo (-2) false, flo (-1) false, flo 1 false, flo 2 false,
               flo 3 false, flo 4 true, flo 5 false, flo 6 false] }

/-- The state `advance` produces from `c5wit` with no buttons pressed. -/
def c5post : Elevator :=
  { c5wit with direction := Direction.up (some 2) }

/-- The reachable state two ticks after pressing button 5 at start-up:
mid-transit upward with the door closed. -/
def c4wit : Elevator :=
  { current_floor_index := 2
    direction := Direction.up (some 2)
    door := DoorState.closed
    floors := [flo (-2) false, flo (-1) false, flo 1 false, flo 2 false,
               flo 3 false, flo 4 true, flo 5 false, flo 6 false] }

/-- The initial state right after an accepted door-open override: door
Opening(0), still Idle at index 2. -/
def c7wit : Elevator := { initState with door := DoorState.opening 0 }

/-- The state `advance` produces from `c7wit` with no buttons pressed. -/
def c7post : Elevator := { initState with door := DoorState.opening 5 }

/-- The reachable state 22 no-press ticks after an accepted door-open
override at start-up: door Open(2). -/
def c8state : Elevator := { initState with door := DoorState.opened 2 }

/-- Button samplings that drive the car out of the floor table: press 5,
let the car travel there and serve it, press 5 again while the direction
is the committed `Up(None)`, and let the car run.  After these 400 ticks
the car sits at index 7 moving up with progress 100. -/
def crashTrace : List (Nat → Bool) :=
  [pOnly 5] ++ List.replicate 246 pFalse ++ [pOnly 5] ++ List.replicate 152 pFalse

/-- The state after `crashTrace`: top floor, Up(Some(100)), request at
index 5 pending below; the next tick indexes `floors[8]`. -/
def preCrash : Elevator :=
  { current_floor_index := 7
    direction := Direction.up (some 100)
    door := DoorState.closed
    floors := [flo (-2) false, flo (-1) false, flo 1 false, flo 2 false,
               flo 3 false, flo 4 true, flo 5 false, flo 6 false] }

end PicoElevator

namespace PicoElevator

theorem set_direction_fst (d : Direction) (e : Elevator) :
    (set_direction d e).1 = { e with direction := d } := by
  unfold set_direction
  split
  · next h => cases e; simp_all
  · rfl

theorem set_door_fst (d : DoorState) (e : Elevator) :
    (set_door d e).1 = { e with door := d } := by
  unfold set_door
  split
  · next h => cases e; simp_all
  · rfl

theorem set_current_floor_index_fst (i : Nat) (e : Elevator) :
    (set_current_floor_index i e).1 = { e with current_floor_index := i } := by
  unfold set_current_floor_index
  split
  · next h => cases e; simp_all
  · rfl

theorem buttonScan_early_idle (p : Nat → Bool) (dir : Direction) (cur : Nat)
    (fs : List FloorSt) (i : Nat) :
    (buttonScan p dir cur fs i).2 = true → dir = Direction.idle := by
  induction fs generalizing i with
  | nil => simp [buttonScan]
  | cons f rest ih =>
      simp only [buttonScan]
      split
      · split
        · rename_i hc
          intro _
          exact hc.1
        · intro h2
          exact ih (i + 1) h2
      · intro h2
        exact ih (i + 1) h2

theorem goto_next_floor_door (e : Elevator) :
    (goto_next_floor e).1.door = e.door := by
  unfold goto_next_floor
  rw [set_direction_fst]

theorem goto_next_floor_current (e : Elevator) :
    (goto_next_floor e).1.current_floor_index = e.current_floor_index := by
  unfold goto_next_floor
  rw [set_direction_fst]

theorem goto_next_floor_floors (e : Elevator) :
    (goto_next_floor e).1.floors = e.floors := by
  unfold goto_next_floor
  rw [set_direction_fst]

theorem inv_of_dir_eq {e : Elevator} (hInv : Inv e) (hne : e.door ≠ DoorState.closed)
    {e1 : Elevator} (hdir : e1.direction = e.direction) : Inv e1 := by
  intro ht
  rw [hdir] at ht
  exact absurd (hInv ht) hne

theorem inv_of_closed {e1 : Elevator} (hc : e1.door = DoorState.closed) : Inv e1 :=
  fun _ => hc

theorem inv_of_nontransit {e1 : Elevator} (hd : isTransit e1.direction = false) : Inv e1 := by
  intro ht
  rw [hd] at ht
  cases ht

theorem inv_advance {p : Nat → Bool} {e e1 : Elevator} {o : Output}
    (hInv : Inv e) (h : advance p e = some (e1, o)) : Inv e1 := by
  simp only [advance] at h
  split at h
  · -- early return: the pre direction was Idle
    rename_i hearly
    have hidle := buttonScan_early_idle p e.direction e.current_floor_index e.floors 0 hearly
    rw [set_door_fst] at h
    simp only [Option.some.injEq, Prod.mk.injEq] at h
    obtain ⟨h1, -⟩ := h
    subst h1
    simp [Inv, isTransit, hidle]
  · rename_i hneg
    split at h
    · -- door Opening
      rename_i progress heq
      have hne : e.door ≠ DoorState.closed := by rw [heq]; simp
      split at h
      · rw [set_door_fst] at h
        simp only [Option.some.injEq, Prod.mk.injEq] at h
        obtain ⟨h1, -⟩ := h
        subst h1
        exact inv_of_dir_eq hInv hne rfl
      · split at h
        · split at h
          · exact absurd h (by simp)
          · rw [set_door_fst] at h
            simp only [Option.some.injEq, Prod.mk.injEq] at h
            obtain ⟨h1, -⟩ := h
            subst h1
            exact inv_of_dir_eq hInv hne rfl
        · rw [set_door_fst] at h
          simp only [Option.some.injEq, Prod.mk.injEq] at h
          obtain ⟨h1, -⟩ := h
          subst h1
          exact inv_of_dir_eq hInv hne rfl
    · -- door Open
      rename_i progress heq
      have hne : e.door ≠ DoorState.closed := by rw [heq]; simp
      split at h
      all_goals
        rw [set_door_fst] at h
        simp only [Option.some.injEq, Prod.mk.injEq] at h
        obtain ⟨h1, -⟩ := h
        subst h1
        exact inv_of_dir_eq hInv hne rfl
    · -- door Closing
      rename_i progress heq
      have hne : e.door ≠ DoorState.closed := by rw [heq]; simp
      split at h
      · split at h
        · exact absurd h (by simp)
        · rename_i f hget
          split at h
          all_goals
            rw [set_door_fst] at h
            simp only [Option.some.injEq, Prod.mk.injEq] at h
            obtain ⟨h1, -⟩ := h
            subst h1
            exact inv_of_closed rfl
      · split at h
        all_goals
          rw [set_door_fst] at h
          simp only [Option.some.injEq, Prod.mk.injEq] at h
          obtain ⟨h1, -⟩ := h
          subst h1
          exact inv_of_dir_eq hInv hne rfl
    · -- door Closed
      rename_i heq
      have hcl : e.door = DoorState.closed := heq
      split at h
      · -- direction Up
        rename_i value
        split at h
        · -- Some(progress)
          rename_i progress
          split at h
          · -- progress = 100: arrival
            split at h
            · exact absurd h (by simp)
            · rename_i f hget
              split at h
              · -- arrived floor requested
                rw [set_current_floor_index_fst, set_door_fst, set_direction_fst] at h
                simp only [Option.some.injEq, Prod.mk.injEq] at h
                obtain ⟨h1, -⟩ := h
                subst h1
                refine inv_of_nontransit ?_
                simp only []
                split
                · split <;> rfl
                · rfl
              · -- arrived floor not requested: keep moving, door still closed
                rw [set_current_floor_index_fst, set_direction_fst] at h
                simp only [Option.some.injEq, Prod.mk.injEq] at h
                obtain ⟨h1, -⟩ := h
                subst h1
                exact inv_of_closed hcl
          · -- progress < 100
            rw [set_direction_fst] at h
            simp only [Option.some.injEq, Prod.mk.injEq] at h
            obtain ⟨h1, -⟩ := h
            subst h1
            exact inv_of_closed hcl
        · -- Up(None): goto_next_floor
          simp only [Option.some.injEq, Prod.ext_iff] at h
          obtain ⟨h1, -⟩ := h
          subst h1
          exact inv_of_closed (by rw [goto_next_floor_door]; exact hcl)
      · -- direction Down
        rename_i value
        split at h
        · rename_i progress
          split at h
          · split at h
            · exact absurd h (by simp)
            · split at h
              · exact absurd h (by simp)
              · rename_i f hget
                split at h
                · rw [set_current_floor_index_fst, set_door_fst, set_direction_fst] at h
                  simp only [Option.some.injEq, Prod.mk.injEq] at h
                  obtain ⟨h1, -⟩ := h
                  subst h1
                  refine inv_of_nontransit ?_
                  simp only []
                  split
                  · split <;> rfl
                  · rfl
                · rw [set_current_floor_index_fst, set_direction_fst] at h
                  simp only [Option.some.injEq, Prod.mk.injEq] at h
                  obtain ⟨h1, -⟩ := h
                  subst h1
                  exact inv_of_closed hcl
          · rw [set_direction_fst] at h
            simp only [Option.some.injEq, Prod.mk.injEq] at h
            obtain ⟨h1, -⟩ := h
            subst h1
            exact inv_of_closed hcl
        · simp only [Option.some.injEq, Prod.ext_iff] at h
          obtain ⟨h1, -⟩ := h
          subst h1
          exact inv_of_closed (by rw [goto_next_floor_door]; exact hcl)
      · -- direction Idle: goto_next_floor
        simp only [Option.some.injEq, Prod.ext_iff] at h
        obtain ⟨h1, -⟩ := h
        subst h1
        exact inv_of_closed (by rw [goto_next_floor_door]; exact hcl)

theorem inv_set_door_open {v : Bool} {e : Elevator} {b : Bool} {e1 : Elevator} {o : Output}
    (hInv : Inv e) (h : set_door_open v e = (b, e1, o)) : Inv e1 := by
  simp only [set_door_open] at h
  split at h
  · split at h
    · simp only [Prod.mk.injEq] at h
      obtain ⟨-, h1, -⟩ := h
      subst h1
      exact hInv
    · rename_i heq
      rw [set_door_fst] at h
      simp only [Prod.mk.injEq] at h
      obtain ⟨-, h1, -⟩ := h
      subst h1
      exact inv_of_dir_eq hInv (by rw [heq]; simp) rfl
    · rename_i progress heq
      rw [set_door_fst] at h
      simp only [Prod.mk.injEq] at h
      obtain ⟨-, h1, -⟩ := h
      subst h1
      exact inv_of_dir_eq hInv (by rw [heq]; simp) rfl
    · split at h
      · rename_i hidle
        rw [set_door_fst] at h
        simp only [Prod.mk.injEq] at h
        obtain ⟨-, h1, -⟩ := h
        subst h1
        exact inv_of_nontransit (by simp [hidle, isTransit])
      · simp only [Prod.mk.injEq] at h
        obtain ⟨-, h1, -⟩ := h
        subst h1
        exact hInv
  · split at h
    · rename_i heq
      rw [set_door_fst] at h
      simp only [Prod.mk.injEq] at h
      obtain ⟨-, h1, -⟩ := h
      subst h1
      exact inv_of_dir_eq hInv (by rw [heq]; simp) rfl
    · simp only [Prod.mk.injEq] at h
      obtain ⟨-, h1, -⟩ := h
      subst h1
      exact hInv

theorem inv_reachable {e : Elevator} (h : Reachable e) : Inv e := by
  induction h with
  | init => intro ht; rfl
  | advanceStep _ hstep ih => exact inv_advance ih hstep
  | doorStep _ hstep ih => exact inv_set_door_open ih hstep


/-- `goto_next_floor` only stores the direction computed by `gotoDir`. -/
theorem goto_next_floor_fst (e : Elevator) :
    (goto_next_floor e).1 = { e with direction := gotoDir e } := by
  unfold goto_next_floor
  rw [set_direction_fst]

/-- A no-press tick leaves the floor table unchanged and never returns
early. -/
theorem buttonScan_pFalse (dir : Direction) (cur : Nat) (fs : List FloorSt)
    (i : Nat) : buttonScan pFalse dir cur fs i = (fs, false) := by
  induction fs generalizing i with
  | nil => rfl
  | cons f rest ih => simp [buttonScan, pFalse, ih]

/-- The button-capture loop does not change the length of the floor table. -/
theorem buttonScan_length (p : Nat → Bool) (dir : Direction) (cur : Nat)
    (fs : List FloorSt) (i : Nat) :
    ((buttonScan p dir cur fs i).1).length = fs.length := by
  induction fs generalizing i with
  | nil => rfl
  | cons f rest ih =>
      simp only [buttonScan]
      split
      · split
        · rfl
        · simp [ih]
      · simp [ih]

/-- States produced by running a trace of ticks from a reachable state are
reachable. -/
theorem runTrace_reachable {tr : List (Nat → Bool)} {e e1 : Elevator}
    (he : Reachable e) (h : runTrace tr e = some e1) : Reachable e1 := by
  induction tr generalizing e with
  | nil =>
      simp only [runTrace, Option.some.injEq] at h
      exact h ▸ he
  | cons p rest ih =>
      simp only [runTrace] at h
      split at h
      · cases h
      · rename_i e2 o2 hstep
        exact ih (Reachable.advanceStep he hstep) h

/-- If no element of a suffix satisfies a predicate, neither does any
element of a shorter suffix. -/
theorem any_drop_succ {α : Type} (l : List α) (p : α → Bool) (k : Nat)
    (h : (l.drop k).any p = false) : (l.drop (k + 1)).any p = false := by
  have hd : l.drop (k + 1) = (l.drop k).drop 1 := by
    rw [List.drop_drop, Nat.add_comm]
  rw [hd]
  cases hk : l.drop k with
  | nil => rfl
  | cons a t =>
      rw [hk] at h
      simp only [List.any_cons, Bool.or_eq_false_iff] at h
      simpa using h.2

/-- An upward direction is not a downward one. -/
theorem isDown_of_isUp {d : Direction} (h : isUp d = true) : isDown d = false := by
  cases d with
  | up _ => rfl
  | down _ => cases h
  | idle => cases h

end PicoElevator

namespace PicoElevator

/-- C4: in every state reachable from the initial state by `advance` and
`set_door_open` calls, a direction of `Up(Some(p))` or `Down(Some(p))`
with `0 < p < 100` implies the door is Closed: the door is never anything
but Closed mid-transit. -/
theorem transit_door_closed {e : Elevator} {q : Nat} (hr : Reachable e)
    (hd : e.direction = Direction.up (some q) ∨
      e.direction = Direction.down (some q))
    (_h0 : 0 < q) (_h100 : q < 100) : e.door = DoorState.closed := by
  refine inv_reachable hr ?_
  rcases hd with h | h <;> rw [h] <;> rfl

/-- Witness for C4: the reachable state two no-press ticks after pressing
button 5 at start-up is mid-transit at `Up(Some(2))` and its door is
Closed. -/
theorem transit_door_closed_witness : c4wit.door = DoorState.closed :=
  transit_door_closed
    (runTrace_reachable Reachable.init
      (by decide : runTrace [pOnly 5, pFalse] initState = some c4wit))
    (Or.inl rfl) (by decide) (by decide)

/-- C3 (code bug): the spec invariant that `current_floor_index` always
indexes an existing floor fails.  After the 400 concrete ticks of
`crashTrace` the program reaches `preCrash` (top floor, `Up(Some(100))`,
a request pending below), and the next tick computes index 8 and reads
`floors[8]`, which panics; the embedding returns `none` there. -/
theorem current_index_out_of_range :
    runTrace crashTrace initState = some preCrash ∧
    Reachable preCrash ∧
    preCrash.current_floor_index = 7 ∧
    preCrash.direction = Direction.up (some 100) ∧
    advance pFalse preCrash = none := by
  refine ⟨by decide,
    runTrace_reachable Reachable.init
      (by decide : runTrace crashTrace initState = some preCrash),
    rfl, rfl, by decide⟩

/-- C1 (code bug): for the Idle car of `c1state` the nearest requested
floor above is at index-distance 1 and the nearest below at distance 3,
so the documented selection (`idleChoiceSpec`, the spec wording) picks
Up; the code instead compares the slice-relative position 1 of the upper
hit minus the index 3 with wrapping `usize` arithmetic and picks
`Down(Some(0))` (in a debug build the same subtraction panics). -/
theorem idle_selection_distance_bug :
    stopAboveDist c1state = some 1 ∧
    stopBelowDist c1state = some 3 ∧
    idleChoiceSpec c1state = Direction.up (some 0) ∧
    (advance pFalse c1state).map (fun r => r.1.direction) =
      some (Direction.down (some 0)) := by
  refine ⟨by decide, by decide, by decide, by decide⟩

/-- Counterexample to C2: `c2state` has door Closed, direction
`Up(Some(100))`, the newly arrived floor (index 2) requested, no request
past index 2 in the travel direction and a request behind (index 0);
the claim demands the opposite direction Down, but `advance` commits
`Up(None)`. -/
theorem arrival_continuation_counterexample :
    c2state.door = DoorState.closed ∧
    c2state.direction = Direction.up (some 100) ∧
    (c2state.floors.get? 2).map (fun f => f.stop) = some true ∧
    ((c2state.floors.drop 3).any (fun f => f.stop)) = false ∧
    ((c2state.floors.take 2).any (fun f => f.stop)) = true ∧
    (advance pFalse c2state).map (fun r => r.1.direction) =
      some (Direction.up none) := by
  refine ⟨rfl, rfl, by decide, by decide, by decide, by decide⟩

/-- Counterexample to C8: from the reachable state `c8state` (door
`Open(2)`), the accepted override `set_door_open(true)` keeps the phase
constructor Open but decreases its progress to 0, so door progress is
neither non-decreasing within a phase nor reset to 0 only on phase
transitions. -/
theorem door_progress_counterexample :
    set_door_open true initState = (true, c7wit, ⟨[], 1⟩) ∧
    runTrace (List.replicate 22 pFalse) c7wit = some c8state ∧
    Reachable c8state ∧
    c8state.door = DoorState.opened 2 ∧
    (set_door_open true c8state).2.1.door = DoorState.opened 0 ∧
    phaseIdx (set_door_open true c8state).2.1.door = phaseIdx c8state.door ∧
    doorProg (set_door_open true c8state).2.1.door < doorProg c8state.door := by
  refine ⟨by decide, by decide,
    runTrace_reachable (Reachable.doorStep Reachable.init
      (by decide : set_door_open true initState = (true, c7wit, ⟨[], 1⟩)))
      (by decide : runTrace (List.replicate 22 pFalse) c7wit = some c8state),
    rfl, by decide, by decide, by decide⟩

/-- C9: calling the stop-request operation with a level absent from the
floor table is silently ignored: it returns false and leaves the state
unchanged. -/
theorem request_stop_invalid {level : Int} {e : Elevator}
    (h : ∀ f ∈ e.floors, f.number ≠ level) :
    request_stop level e = (false, e) := by
  unfold request_stop
  have hnone : e.floors.findIdx? (fun f => decide (f.number = level)) = none := by
    rw [List.findIdx?_eq_none_iff]
    intro f hf
    simp [h f hf]
  rw [hnone]

/-- Witness for C9: level 99 is absent from the start-up table and its
request is ignored. -/
theorem request_stop_invalid_witness :
    request_stop 99 initState = (false, initState) :=
  request_stop_invalid (by decide)

end PicoElevator

namespace PicoElevator

/-- C6: `set_door_open` conforms exactly to the claimed table: the accept
flag and resulting door state match `setDoorOpenSpec` (want_open=true maps
Open(p) to Open(0), Closing(p) to Opening(100-p), Closed to Opening(0)
only when Idle, rejecting Opening and Closed-with-travel; want_open=false
maps Open(p) to Closing(0) and rejects otherwise), and a rejected request
leaves the whole state unchanged. -/
theorem set_door_open_conforms (v : Bool) (e : Elevator) :
    (set_door_open v e).1 = (setDoorOpenSpec v e).1 ∧
    (set_door_open v e).2.1.door = (setDoorOpenSpec v e).2 ∧
    ((setDoorOpenSpec v e).1 = false → (set_door_open v e).2.1 = e) := by
  cases v <;> cases hd : e.door <;>
    simp [set_door_open, setDoorOpenSpec, set_door_fst, hd]
  · -- want_open with the door Closed: split on the direction
    split <;> simp_all [set_door_fst]

/-- `set_door` fires its repaint notification exactly when the stored door
value actually changes. -/
theorem set_door_repaints (d : DoorState) (e : Elevator) :
    (set_door d e).2 = (if (set_door d e).1.door = e.door then 0 else 1) := by
  unfold set_door
  split
  · rename_i h
    simp [h]
  · rename_i h
    simp only []
    rw [if_neg (fun hc => h hc.symm)]

/-- C10: `set_door_open` modifies only the door field: direction, current
floor index and the whole floor table (request flags and indicators) are
untouched, no announcement is emitted, and the only other observable
effect is exactly one repaint notification, fired exactly when the door
value actually changes. -/
theorem set_door_open_frame (v : Bool) (e : Elevator) :
    (set_door_open v e).2.1.direction = e.direction ∧
    (set_door_open v e).2.1.current_floor_index = e.current_floor_index ∧
    (set_door_open v e).2.1.floors = e.floors ∧
    (set_door_open v e).2.2.announces = [] ∧
    (set_door_open v e).2.2.repaints =
      (if (set_door_open v e).2.1.door = e.door then 0 else 1) := by
  cases v <;> cases hd : e.door <;>
    simp [set_door_open, set_door_fst, set_door_repaints, hd]
  · split <;> simp [set_door_fst, set_door_repaints, hd]

end PicoElevator

namespace PicoElevator

/-- C2 (amended): with door Closed and direction Up(Some(100)) (symmetrically
Down(Some(100))) and no buttons pressed, advance() moves
current_floor_index by +1 (resp. -1, which requires a positive index —
at index 0 the code panics instead); if the newly arrived floor is
requested it sets the door to Opening(0) and commits the same direction
with None progress, except at the last (resp. first) index where it
commits the opposite direction with None if some floor behind is
requested and Idle otherwise; if the newly arrived floor is not
requested, the direction becomes the same direction at Some(0). -/
theorem arrival_step_amended :
    (∀ e e1 o, e.door = DoorState.closed →
       e.direction = Direction.up (some 100) →
       advance pFalse e = some (e1, o) →
       e1.current_floor_index = e.current_floor_index + 1 ∧
       e1.floors = e.floors ∧
       ∀ f, e.floors.get? (e.current_floor_index + 1) = some f →
         (f.stop = true →
            e1.door = DoorState.opening 0 ∧
            e1.direction = arrivalDirUp e.floors (e.current_floor_index + 1)) ∧
         (f.stop = false →
            e1.door = DoorState.closed ∧
            e1.direction = Direction.up (some 0))) ∧
    (∀ e e1 o, e.door = DoorState.closed →
       e.direction = Direction.down (some 100) →
       advance pFalse e = some (e1, o) →
       0 < e.current_floor_index ∧
       e1.current_floor_index = e.current_floor_index - 1 ∧
       e1.floors = e.floors ∧
       ∀ f, e.floors.get? (e.current_floor_index - 1) = some f →
         (f.stop = true →
            e1.door = DoorState.opening 0 ∧
            e1.direction = arrivalDirDown e.floors (e.current_floor_index - 1)) ∧
         (f.stop = false →
            e1.door = DoorState.closed ∧
            e1.direction = Direction.down (some 0))) := by
  constructor
  · intro e e1 o hd hdir h
    simp only [advance, buttonScan_pFalse, hd, hdir, Bool.false_eq_true,
      eq_self_iff_true, if_true, if_false, set_current_floor_index_fst] at h
    cases hget : e.floors.get? (e.current_floor_index + 1) with
    | none =>
        rw [hget] at h
        cases h
    | some f =>
        rw [hget] at h
        cases hstop : f.stop with
        | true =>
            simp only [hstop, Bool.false_eq_true, eq_self_iff_true, if_true,
              if_false, set_door_fst, set_direction_fst, Option.some.injEq,
              Prod.mk.injEq] at h
            obtain ⟨h1, -⟩ := h
            subst h1
            refine ⟨rfl, rfl, ?_⟩
            intro g hg
            injection hg with hg
            subst hg
            constructor
            · intro _
              refine ⟨rfl, ?_⟩
              simp only [arrivalDirUp, List.findIdx?_isSome]
            · intro hc
              rw [hstop] at hc
              cases hc
        | false =>
            simp only [hstop, Bool.false_eq_true, eq_self_iff_true, if_true,
              if_false, set_direction_fst, Option.some.injEq,
              Prod.mk.injEq] at h
            obtain ⟨h1, -⟩ := h
            subst h1
            refine ⟨rfl, rfl, ?_⟩
            intro g hg
            injection hg with hg
            subst hg
            constructor
            · intro hc
              rw [hstop] at hc
              cases hc
            · intro _
              exact ⟨rfl, rfl⟩
  · intro e e1 o hd hdir h
    simp only [advance, buttonScan_pFalse, hd, hdir, Bool.false_eq_true,
      eq_self_iff_true, if_true, if_false, set_current_floor_index_fst] at h
    by_cases h0 : e.current_floor_index = 0
    · rw [if_pos h0] at h
      cases h
    · rw [if_neg h0] at h
      cases hget : e.floors.get? (e.current_floor_index - 1) with
      | none =>
          rw [hget] at h
          cases h
      | some f =>
          rw [hget] at h
          cases hstop : f.stop with
          | true =>
              simp only [hstop, Bool.false_eq_true, eq_self_iff_true, if_true,
                if_false, set_door_fst, set_direction_fst, Option.some.injEq,
                Prod.mk.injEq] at h
              obtain ⟨h1, -⟩ := h
              subst h1
              refine ⟨Nat.pos_of_ne_zero h0, rfl, rfl, ?_⟩
              intro g hg
              injection hg with hg
              subst hg
              constructor
              · intro _
                refine ⟨rfl, ?_⟩
                simp only [arrivalDirDown, List.findIdx?_isSome]
              · intro hc
                rw [hstop] at hc
                cases hc
          | false =>
              simp only [hstop, Bool.false_eq_true, eq_self_iff_true, if_true,
                if_false, set_direction_fst, Option.some.injEq,
                Prod.mk.injEq] at h
              obtain ⟨h1, -⟩ := h
              subst h1
              refine ⟨Nat.pos_of_ne_zero h0, rfl, rfl, ?_⟩
              intro g hg
              injection hg with hg
              subst hg
              constructor
              · intro hc
                rw [hstop] at hc
                cases hc
              · intro _
                exact ⟨rfl, rfl⟩


/-- Witness for C2 (amended): arriving upward at the requested index 2 of
`c2state` commits `Up(None)` per `arrivalDirUp`, and arriving downward at
the requested index 2 of `c2dstate` commits `Down(None)` per
`arrivalDirDown`. -/
theorem arrival_step_amended_witness :
    (c2post.current_floor_index = 2 ∧ c2post.door = DoorState.opening 0 ∧
      c2post.direction = arrivalDirUp c2state.floors 2) ∧
    (c2dpost.current_floor_index = 2 ∧ c2dpost.door = DoorState.opening 0 ∧
      c2dpost.direction = arrivalDirDown c2dstate.floors 2) := by
  refine ⟨?_, ?_⟩
  · obtain ⟨ha, -, hf⟩ := arrival_step_amended.1 c2state c2post ⟨[], 3⟩ rfl rfl
      (by decide)
    have hb := (hf (flo 1 true) (by decide)).1 rfl
    exact ⟨ha, hb.1, hb.2⟩
  · obtain ⟨-, ha, -, hf⟩ := arrival_step_amended.2 c2dstate c2dpost ⟨[], 3⟩ rfl
      rfl (by decide)
    have hb := (hf (flo 1 true) (by decide)).1 rfl
    exact ⟨ha, hb.1, hb.2⟩

end PicoElevator

namespace PicoElevator

/-- Counterexample to C5 as stated: in `c5state` the car is moving Up at
index 6 and index 7 (strictly above) is requested, yet the very step that
serves index 7 sets the direction to `Down(None)` (a request at index 3
is pending behind), because the pre-state request above is consumed by
that same step. -/
theorem no_reversal_counterexample :
    c5state.direction = Direction.up (some 100) ∧
    ((c5state.floors.drop (c5state.current_floor_index + 1)).any
      (fun f => f.stop)) = true ∧
    (advance pFalse c5state).map (fun r => (r.1.current_floor_index,
      r.1.direction)) = some (7, Direction.down none) := by
  refine ⟨rfl, by decide, by decide⟩

/-- C5 (amended): evaluated after the step: whenever the car was moving Up
and, after an `advance` step, some floor strictly above the new
current_floor_index is still requested, the new direction is not Down —
a request behind the car is served only once no requested floor remains
above. -/
theorem no_premature_reversal {p : Nat → Bool} {e e1 : Elevator} {o : Output}
    (hup : isUp e.direction = true) (h : advance p e = some (e1, o))
    (habove : hasStopAbove e1 = true) : isDown e1.direction = false := by
  simp only [advance] at h
  split at h
  · rename_i hearly
    have hidle := buttonScan_early_idle p e.direction e.current_floor_index
      e.floors 0 hearly
    rw [hidle] at hup
    cases hup
  · rename_i hneg
    split at h
    · -- Opening
      rename_i progress heq
      split at h
      · rw [set_door_fst] at h
        simp only [Option.some.injEq, Prod.mk.injEq] at h
        obtain ⟨h1, -⟩ := h
        subst h1
        exact isDown_of_isUp hup
      · split at h
        · split at h
          · exact absurd h (by simp)
          · rw [set_door_fst] at h
            simp only [Option.some.injEq, Prod.mk.injEq] at h
            obtain ⟨h1, -⟩ := h
            subst h1
            exact isDown_of_isUp hup
        · rw [set_door_fst] at h
          simp only [Option.some.injEq, Prod.mk.injEq] at h
          obtain ⟨h1, -⟩ := h
          subst h1
          exact isDown_of_isUp hup
    · -- Open
      rename_i progress heq
      split at h
      all_goals
        rw [set_door_fst] at h
        simp only [Option.some.injEq, Prod.mk.injEq] at h
        obtain ⟨h1, -⟩ := h
        subst h1
        exact isDown_of_isUp hup
    · -- Closing
      rename_i progress heq
      split at h
      · split at h
        · exact absurd h (by simp)
        · rename_i f hget
          split at h
          all_goals
            rw [set_door_fst] at h
            simp only [Option.some.injEq, Prod.mk.injEq] at h
            obtain ⟨h1, -⟩ := h
            subst h1
            exact isDown_of_isUp hup
      · split at h
        all_goals
          rw [set_door_fst] at h
          simp only [Option.some.injEq, Prod.mk.injEq] at h
          obtain ⟨h1, -⟩ := h
          subst h1
          exact isDown_of_isUp hup
    · -- Closed
      rename_i heq
      split at h
      · -- Up
        rename_i value hdirv
        split at h
        · rename_i progress
          split at h
          · -- arrival
            split at h
            · exact absurd h (by simp)
            · rename_i f hget
              split at h
              · -- requested
                rename_i hstop
                rw [set_current_floor_index_fst, set_door_fst,
                  set_direction_fst] at h
                simp only [set_current_floor_index_fst] at hget
                simp only [Option.some.injEq, Prod.mk.injEq] at h
                obtain ⟨h1, -⟩ := h
                subst h1
                split
                · rename_i hidx
                  split
                  · -- would reverse at the top: nothing can be above
                    exfalso
                    obtain ⟨hlt, -⟩ := List.get?_eq_some.mp hget
                    have hnil : ((buttonScan p e.direction e.current_floor_index
                        e.floors 0).1.drop (e.current_floor_index + 1 + 1)) = [] :=
                      List.drop_eq_nil_of_le (by omega)
                    simp only [hasStopAbove, hnil, List.any_nil] at habove
                    cases habove
                  · rfl
                · rfl
              · rw [set_current_floor_index_fst, set_direction_fst] at h
                simp only [Option.some.injEq, Prod.mk.injEq] at h
                obtain ⟨h1, -⟩ := h
                subst h1
                rfl
          · rw [set_direction_fst] at h
            simp only [Option.some.injEq, Prod.mk.injEq] at h
            obtain ⟨h1, -⟩ := h
            subst h1
            rfl
        · -- Up(None): goto_next_floor
          simp only [Option.some.injEq, Prod.ext_iff] at h
          obtain ⟨h1, -⟩ := h
          subst h1
          rw [goto_next_floor_fst]
          simp only [gotoDir, hdirv]
          split
          · rfl
          · split
            · -- reversing: no request at or above the current index
              rename_i hnoup _
              exfalso
              rw [Bool.not_eq_true, List.findIdx?_isSome] at hnoup
              have hno1 := any_drop_succ _ _ _ hnoup
              simp only [goto_next_floor_fst, hasStopAbove, hdirv] at habove
              rw [hno1] at habove
              cases habove
            · rfl
      · -- Down: contradicts isUp
        rename_i value hdirv
        rw [hdirv] at hup
        cases hup
      · -- Idle: contradicts isUp
        rename_i hdirv
        rw [hdirv] at hup
        cases hup


/-- Witness for C5 (amended): from `c5wit` (moving up at index 2, request
at index 5) one tick keeps a request above and the direction stays
non-Down. -/
theorem no_premature_reversal_witness : isDown c5post.direction = false :=
  @no_premature_reversal pFalse c5wit c5post ⟨[], 1⟩ (by decide)
    (by decide : advance pFalse c5wit = some (c5post, ⟨[], 1⟩))
    (by decide)

end PicoElevator

namespace PicoElevator

/-- C7: on a tick with the door not Closed and no early return from call
capture, `advance` behaves exactly as `doorTickSpec` on the post-capture
state: progress steps by 5 in Opening/Closing and by 2 in Open; the
arrival cue for the current floor is emitted at Opening progress 0 and
the doors-closing cue at Closing progress 0; at progress 100 the
transitions are Opening to Open(0), Open to Closing(0) and Closing to
Closed, the last clearing the current floor request flag and turning its
indicator off when set. -/
theorem door_tick_conforms {p : Nat → Bool} {e : Elevator}
    (hd : e.door ≠ DoorState.closed)
    (hin : e.current_floor_index < e.floors.length)
    (hearly : (buttonScan p e.direction e.current_floor_index e.floors 0).2 = false) :
    (advance p e).map (fun r => (r.1, r.2.announces)) =
      some (doorTickSpec
        { e with floors := (buttonScan p e.direction e.current_floor_index
            e.floors 0).1 }) := by
  have hlen : e.current_floor_index <
      ((buttonScan p e.direction e.current_floor_index e.floors 0).1).length := by
    rw [buttonScan_length]
    exact hin
  obtain ⟨f, hf⟩ : ∃ f, ((buttonScan p e.direction e.current_floor_index
      e.floors 0).1).get? e.current_floor_index = some f :=
    ⟨_, List.get?_eq_get hlen⟩
  rw [List.get?_eq_getElem?] at hf
  simp only [advance, hearly, Bool.false_eq_true, if_false]
  cases hdoor : e.door with
  | closed => exact absurd hdoor hd
  | opening q =>
      by_cases h100 : q = 100
      · subst h100
        simp [doorTickSpec, set_door_fst]
      · by_cases h0 : q = 0
        · subst h0
          simp [doorTickSpec, set_door_fst, hf, h100]
        · simp [doorTickSpec, set_door_fst, hf, h100, h0]
  | opened q =>
      by_cases h100 : q = 100
      · subst h100
        simp [doorTickSpec, set_door_fst]
      · simp [doorTickSpec, set_door_fst, h100]
  | closing q =>
      by_cases h100 : q = 100
      · subst h100
        cases hstop : f.stop with
        | true => simp [doorTickSpec, set_door_fst, hf, hstop]
        | false => simp [doorTickSpec, set_door_fst, hf, hstop]
      · by_cases h0 : q = 0
        · subst h0
          simp [doorTickSpec, set_door_fst, h100]
        · simp [doorTickSpec, set_door_fst, h100, h0]


/-- Witness for C7: one no-press tick from `c7wit` (door Opening(0))
emits the arrival cue for index 2 and advances the door to Opening(5). -/
theorem door_tick_conforms_witness :
    (advance pFalse c7wit).map (fun r => (r.1, r.2.announces)) =
      some (doorTickSpec
        { c7wit with floors := (buttonScan pFalse c7wit.direction
            c7wit.current_floor_index c7wit.floors 0).1 }) :=
  door_tick_conforms (by decide) (by decide) (by decide)

end PicoElevator

namespace PicoElevator

/-- C8 (amended): under an `advance` tick without the early-return call
capture, door progress never decreases while the phase constructor is
unchanged and every phase change enters the new phase at progress 0
(Closed carrying none); the early-return capture path forces the door to
Opening(0) from any phase; and `set_door_open` changes the door only to
Open(0), Closing(0), Opening(0), or Opening(100-p) from Closing(p) —
the last two being the documented overrides that reset Open progress or
re-enter Opening partway. -/
theorem door_progress_amended :
    (∀ p e e1 o,
       (buttonScan p e.direction e.current_floor_index e.floors 0).2 = false →
       advance p e = some (e1, o) →
       (phaseIdx e1.door = phaseIdx e.door →
          doorProg e.door ≤ doorProg e1.door) ∧
       (phaseIdx e1.door ≠ phaseIdx e.door → doorProg e1.door = 0)) ∧
    (∀ p e e1 o,
       (buttonScan p e.direction e.current_floor_index e.floors 0).2 = true →
       advance p e = some (e1, o) → e1.door = DoorState.opening 0) ∧
    (∀ v e, (set_door_open v e).2.1.door = e.door ∨
       (set_door_open v e).2.1.door = DoorState.opened 0 ∨
       (set_door_open v e).2.1.door = DoorState.closing 0 ∨
       (set_door_open v e).2.1.door = DoorState.opening 0 ∨
       ∃ q, e.door = DoorState.closing q ∧
         (set_door_open v e).2.1.door = DoorState.opening (100 - q)) := by
  refine ⟨?_, ?_, ?_⟩
  · intro p e e1 o hsc h
    simp only [advance, hsc, Bool.false_eq_true, if_false] at h
    split at h
    · -- Opening
      rename_i progress heq
      split at h
      · rw [set_door_fst] at h
        simp only [Option.some.injEq, Prod.mk.injEq] at h
        obtain ⟨h1, -⟩ := h
        subst h1
        exact ⟨fun hph => by rw [heq] at hph; simp [phaseIdx] at hph,
          fun _ => rfl⟩
      · split at h
        · split at h
          · exact absurd h (by simp)
          · rw [set_door_fst] at h
            simp only [Option.some.injEq, Prod.mk.injEq] at h
            obtain ⟨h1, -⟩ := h
            subst h1
            exact ⟨fun _ => by rw [heq]; exact Nat.le_add_right _ _,
              fun hph => absurd (by rw [heq]; rfl) hph⟩
        · rw [set_door_fst] at h
          simp only [Option.some.injEq, Prod.mk.injEq] at h
          obtain ⟨h1, -⟩ := h
          subst h1
          exact ⟨fun _ => by rw [heq]; exact Nat.le_add_right _ _,
            fun hph => absurd (by rw [heq]; rfl) hph⟩
    · -- Open
      rename_i progress heq
      split at h
      · rw [set_door_fst] at h
        simp only [Option.some.injEq, Prod.mk.injEq] at h
        obtain ⟨h1, -⟩ := h
        subst h1
        exact ⟨fun hph => by rw [heq] at hph; simp [phaseIdx] at hph,
          fun _ => rfl⟩
      · rw [set_door_fst] at h
        simp only [Option.some.injEq, Prod.mk.injEq] at h
        obtain ⟨h1, -⟩ := h
        subst h1
        exact ⟨fun _ => by rw [heq]; exact Nat.le_add_right _ _,
          fun hph => absurd (by rw [heq]; rfl) hph⟩
    · -- Closing
      rename_i progress heq
      split at h
      · split at h
        · exact absurd h (by simp)
        · rename_i f hget
          split at h
          all_goals
            rw [set_door_fst] at h
            simp only [Option.some.injEq, Prod.mk.injEq] at h
            obtain ⟨h1, -⟩ := h
            subst h1
            exact ⟨fun hph => by rw [heq] at hph; simp [phaseIdx] at hph,
              fun _ => rfl⟩
      · split at h
        all_goals
          rw [set_door_fst] at h
          simp only [Option.some.injEq, Prod.mk.injEq] at h
          obtain ⟨h1, -⟩ := h
          subst h1
          exact ⟨fun _ => by rw [heq]; exact Nat.le_add_right _ _,
            fun hph => absurd (by rw [heq]; rfl) hph⟩
    · -- Closed
      rename_i heq
      split at h
      · rename_i value
        split at h
        · rename_i progress
          split at h
          · split at h
            · exact absurd h (by simp)
            · rename_i f hget
              split at h
              · rw [set_current_floor_index_fst, set_door_fst,
                  set_direction_fst] at h
                simp only [Option.some.injEq, Prod.mk.injEq] at h
                obtain ⟨h1, -⟩ := h
                subst h1
                exact ⟨fun hph => by rw [heq] at hph; simp [phaseIdx] at hph,
                  fun _ => rfl⟩
              · rw [set_current_floor_index_fst, set_direction_fst] at h
                simp only [Option.some.injEq, Prod.mk.injEq] at h
                obtain ⟨h1, -⟩ := h
                subst h1
                exact ⟨fun _ => Nat.le_refl _, fun hph => absurd rfl hph⟩
          · rw [set_direction_fst] at h
            simp only [Option.some.injEq, Prod.mk.injEq] at h
            obtain ⟨h1, -⟩ := h
            subst h1
            exact ⟨fun _ => Nat.le_refl _, fun hph => absurd rfl hph⟩
        · simp only [Option.some.injEq, Prod.ext_iff] at h
          obtain ⟨h1, -⟩ := h
          subst h1
          simp only [goto_next_floor_fst]
          exact ⟨fun _ => Nat.le_refl _, fun hph => absurd rfl hph⟩
      · rename_i value
        split at h
        · rename_i progress
          split at h
          · split at h
            · exact absurd h (by simp)
            · split at h
              · exact absurd h (by simp)
              · rename_i f hget
                split at h
                · rw [set_current_floor_index_fst, set_door_fst,
                    set_direction_fst] at h
                  simp only [Option.some.injEq, Prod.mk.injEq] at h
                  obtain ⟨h1, -⟩ := h
                  subst h1
                  exact ⟨fun hph => by rw [heq] at hph; simp [phaseIdx] at hph,
                    fun _ => rfl⟩
                · rw [set_current_floor_index_fst, set_direction_fst] at h
                  simp only [Option.some.injEq, Prod.mk.injEq] at h
                  obtain ⟨h1, -⟩ := h
                  subst h1
                  exact ⟨fun _ => Nat.le_refl _, fun hph => absurd rfl hph⟩
          · rw [set_direction_fst] at h
            simp only [Option.some.injEq, Prod.mk.injEq] at h
            obtain ⟨h1, -⟩ := h
            subst h1
            exact ⟨fun _ => Nat.le_refl _, fun hph => absurd rfl hph⟩
        · simp only [Option.some.injEq, Prod.ext_iff] at h
          obtain ⟨h1, -⟩ := h
          subst h1
          simp only [goto_next_floor_fst]
          exact ⟨fun _ => Nat.le_refl _, fun hph => absurd rfl hph⟩
      · simp only [Option.some.injEq, Prod.ext_iff] at h
        obtain ⟨h1, -⟩ := h
        subst h1
        simp only [goto_next_floor_fst]
        exact ⟨fun _ => Nat.le_refl _, fun hph => absurd rfl hph⟩
  · intro p e e1 o hsc h
    simp only [advance, hsc, if_true, set_door_fst] at h
    simp only [Option.some.injEq, Prod.mk.injEq] at h
    obtain ⟨h1, -⟩ := h
    subst h1
    rfl
  · intro v e
    cases v <;> cases hd : e.door <;>
      simp only [set_door_open, set_door_fst, hd, Bool.false_eq_true,
        eq_self_iff_true, if_false, if_true]
    · exact Or.inl trivial
    · exact Or.inr (Or.inr (Or.inl trivial))
    · exact Or.inl trivial
    · exact Or.inl trivial
    · exact Or.inl trivial
    · exact Or.inr (Or.inl trivial)
    · exact Or.inr (Or.inr (Or.inr (Or.inr ⟨_, rfl, rfl⟩)))
    · split
      · exact Or.inr (Or.inr (Or.inr (Or.inl rfl)))
      · exact Or.inl hd


/-- Witness for C8 (amended): the no-press tick from `c7wit` keeps the
Opening phase and does not decrease its progress. -/
theorem door_progress_amended_witness :
    doorProg c7wit.door ≤ doorProg c7post.door :=
  (door_progress_amended.1 pFalse c7wit c7post ⟨[Announce.floorCue 2], 1⟩
    (by decide)
    (by decide :
      advance pFalse c7wit = some (c7post, ⟨[Announce.floorCue 2], 1⟩))).1
    (by decide)

end PicoElevator
